import Mathlib

/-!
# Notes API: ownership enforcement, filtering and the auth gate

A shallow embedding of `backend/controllers/notesController.js`,
`backend/models/Note.js`, `backend/middleware/auth.js` and of `filterNotes` in
`frontend/src/pages/Dashboard.jsx`.

The document store, the ODM, the token library and the regular-expression
engine of the database are external to the repository.  The note collection is
modelled as a list of documents with the ODM operations the controllers call
(`findById`, `create`, `findByIdAndUpdate`, `deleteOne`, `find ... sort`);
the token library, the user lookup and the regular-expression engine are
parameters of the functions that call them.

An id arrives as a string and is cast to an ObjectId where the ODM casts it; a
string that is no ObjectId makes the call throw.  The store is reachable.  A
thrown error is an `Except.error`, which the `catch` of each handler turns
into a response.
-/

namespace NotesApi

/-! ## JavaScript strings -/

/-- The `length` of a JavaScript string: UTF-16 code units. -/
def jsLength (s : String) : Nat :=
  (s.data.map fun c => if c.toNat < 65536 then 1 else 2).sum

/-- White space and line terminators removed by `String.prototype.trim`. -/
def jsIsWhiteSpace (c : Char) : Bool :=
  let n := c.toNat
  n == 9 || n == 10 || n == 11 || n == 12 || n == 13 || n == 32 || n == 160 ||
  n == 5760 || (8192 ≤ n && n ≤ 8202) || n == 8232 || n == 8233 || n == 8239 ||
  n == 8287 || n == 12288 || n == 65279

/-- The method `String.prototype.trim`. -/
def jsTrim (s : String) : String :=
  String.mk ((s.data.dropWhile jsIsWhiteSpace).reverse.dropWhile jsIsWhiteSpace).reverse

/-- Pieces of a character list between occurrences of the separator. -/
def splitChars (sep : Char) : List Char → List (List Char)
  | [] => [[]]
  | c :: cs =>
    if c = sep then [] :: splitChars sep cs
    else
      match splitChars sep cs with
      | [] => [[c]]
      | p :: ps => (c :: p) :: ps

/-- The method `String.prototype.split` with a one-character separator. -/
def jsSplit (sep : Char) (s : String) : List String :=
  (splitChars sep s.data).map String.mk

/-- The method `String.prototype.startsWith`. -/
def jsStartsWith (s p : String) : Bool :=
  p.data.isPrefixOf s.data

/-- Truthiness of a JavaScript value that is `undefined` or a string. -/
def truthy : Option String → Bool
  | none => false
  | some s => s != ""

/-! ## Data model -/

/-- The sixteen digits of the string form of an ObjectId. -/
def lowerHexDigits : List Char :=
  ['0', '1', '2', '3', '4', '5', '6', '7', '8', '9', 'a', 'b', 'c', 'd', 'e', 'f']

/-- The string form of an ObjectId: 24 hexadecimal digits in lower case. -/
def isObjectIdHex (s : String) : Bool :=
  s.data.length == 24 && s.data.all fun c => lowerHexDigits.contains c

/-- A document identifier; `toString` is its hexadecimal string form. -/
structure ObjectId where
  toString : String
  isHex : isObjectIdHex toString = true
deriving DecidableEq

/-- The lower-case form of a hexadecimal digit; other characters are kept. -/
def lowerHexDigit (c : Char) : Char :=
  if c = 'A' then 'a' else if c = 'B' then 'b' else if c = 'C' then 'c'
  else if c = 'D' then 'd' else if c = 'E' then 'e' else if c = 'F' then 'f' else c

/-- The digits of a string, each in its lower-case form. -/
def lowerHex (s : String) : String := String.mk (s.data.map lowerHexDigit)

/-- Cast of a string to an ObjectId, as the ODM does for `ObjectId` paths and
for the `_id` of a query: a string of 24 hexadecimal digits, in either case,
denotes the ObjectId whose string form is its lower-case form; any other
string is no ObjectId (`none`) and makes the cast throw.  (Earlier major
versions of the ODM also took any string of 12 characters.) -/
def castObjectId (s : String) : Option ObjectId :=
  if h : isObjectIdHex (lowerHex s) = true then some ⟨lowerHex s, h⟩ else none

/-- A user document (`models/User.js`); `password` is absent when deselected. -/
structure User where
  _id : ObjectId
  name : String
  email : String
  password : Option String
  createdAt : Nat
deriving DecidableEq

/-- The virtual `id` of a document: the string form of `_id`. -/
def User.id (u : User) : String := u._id.toString

/-- A note document (`models/Note.js`), with the two `timestamps` fields. -/
structure Note where
  _id : ObjectId
  title : String
  content : String
  tags : List String
  color : String
  user : ObjectId
  createdAt : Nat
  updatedAt : Nat
deriving DecidableEq

/-- The note collection. -/
abbrev Store := List Note

/-- The keys of a JSON request body that the note schema knows. -/
structure NoteBody where
  title : Option String
  content : Option String
  tags : Option (List String)
  color : Option String
  user : Option String
deriving DecidableEq

/-- The `data` member of a JSON response. -/
inductive Data where
  | absent
  | note (n : Note)
  | notes (ns : List Note)
  | empty
deriving DecidableEq

/-- A message of a response: a text, or the `message` of an error of the ODM
whose wording is not modelled.  `castError value path` is the message of the
error thrown because `value` is no ObjectId at `path`; `updateValidation failed`
is the message of the validation error of an update whose validators failed on
the listed paths (the order of the paths in its text follows the keys of the
body and is not modelled). -/
inductive Message where
  | text (s : String)
  | castError (value path : String)
  | updateValidation (failed : List (String × String))
deriving DecidableEq

/-- What `res.status(..).json(..)` sends. -/
structure Response where
  status : Nat
  success : Bool
  message : Option Message
  count : Option Nat
  data : Data
deriving DecidableEq

/-- A failure response `{ success: false, message }` with a given text. -/
def failure (status : Nat) (message : String) : Response :=
  { status := status, success := false, message := some (Message.text message),
    count := none, data := Data.absent }

/-- The response of a handler's `catch`: status 500 with `error.message`. -/
def caught (message : Message) : Response :=
  { status := 500, success := false, message := some message, count := none,
    data := Data.absent }

/-- Equality of results that return or throw is decidable. -/
instance exceptDecidableEq {ε α : Type} [DecidableEq ε] [DecidableEq α] :
    DecidableEq (Except ε α)
  | Except.ok a, Except.ok b =>
    if h : a = b then isTrue (by rw [h]) else isFalse (fun h2 => h (by cases h2; rfl))
  | Except.error a, Except.error b =>
    if h : a = b then isTrue (by rw [h]) else isFalse (fun h2 => h (by cases h2; rfl))
  | Except.ok _, Except.error _ => isFalse (fun h => by cases h)
  | Except.error _, Except.ok _ => isFalse (fun h => by cases h)

/-! ## The ODM operations on the note collection -/

/-- The query `Note.findById(id)`: the id is cast to an ObjectId, which throws
when the string is none; otherwise the document with that `_id`, or null. -/
def Note.findById (db : Store) (id : String) : Except Message (Option Note) :=
  match castObjectId id with
  | none => Except.error (Message.castError id "_id")
  | some oid => Except.ok (db.find? fun n => n._id == oid)

/-- The call `note.deleteOne()`: removes the document with the note's `_id`. -/
def Note.deleteOne (db : Store) (note : Note) : Store :=
  db.eraseP fun n => n._id == note._id

/-! ## Schema validation (`models/Note.js`) -/

/-- The `required` check of a string path: a string of positive length. -/
def checkRequired : Option String → Bool
  | none => false
  | some s => s != ""

/-- The `maxlength` check: passes on an absent value. -/
def checkMaxlength (limit : Nat) : Option String → Bool
  | none => true
  | some s => decide (jsLength s ≤ limit)

/-- A hexadecimal digit, in either case. -/
def isHexDigit (c : Char) : Bool :=
  ('0' ≤ c && c ≤ '9') || ('a' ≤ c && c ≤ 'f') || ('A' ≤ c && c ≤ 'F')

/-- The test of `/^#[0-9A-F]{6}$/i`. -/
def isHexColor (s : String) : Bool :=
  match s.data with
  | '#' :: ds => ds.length == 6 && ds.all isHexDigit
  | _ => false

/-- The `match` check: passes on an absent value and on the empty string. -/
def checkMatch : Option String → Bool
  | none => true
  | some s => s == "" || isHexColor s

/-- The `trim: true` setter of `title`. -/
def setTitle (v : Option String) : Option String := v.map jsTrim

/-- Errors of the validators of `title` on a value already set. -/
def titleErrors (v : Option String) : List (String × String) :=
  if !checkRequired v then [("title", "Please provide a title")]
  else if !checkMaxlength 100 v then [("title", "Title cannot exceed 100 characters")]
  else []

/-- Errors of the validators of `content`. -/
def contentErrors (v : Option String) : List (String × String) :=
  if !checkRequired v then [("content", "Please provide content")]
  else if !checkMaxlength 5000 v then [("content", "Content cannot exceed 5000 characters")]
  else []

/-- Errors of the validator of `color`. -/
def colorErrors (v : Option String) : List (String × String) :=
  if !checkMatch v then [("color", "Please provide a valid hex color")] else []

/-- The message of a validation error: a heading and one item per failed path. -/
def validationMessage (heading : String) (errs : List (String × String)) : String :=
  heading ++ ": " ++ ", ".intercalate (errs.map fun e => e.1 ++ ": " ++ e.2)

/-- The object given to `Note.create`. -/
structure NoteInput where
  title : Option String
  content : Option String
  tags : List String
  color : String
  user : String
deriving DecidableEq

/-- The call `Note.create(doc)`: cast of `user`, setters, validation of every
path, then the insert of a document with the generated `_id` and both
timestamps set to the current time.  A `user` that is no ObjectId and a
validation failure throw and insert nothing. -/
def Note.create (db : Store) (now : Nat) (newId : ObjectId) (doc : NoteInput) :
    Except Message (Store × Note) :=
  match castObjectId doc.user with
  | none => Except.error (Message.castError doc.user "user")
  | some owner =>
    let title := setTitle doc.title
    let errs := titleErrors title ++ contentErrors doc.content ++ colorErrors (some doc.color)
    match errs with
    | [] =>
      let note : Note :=
        { _id := newId, title := title.getD "", content := doc.content.getD "",
          tags := doc.tags, color := doc.color, user := owner,
          createdAt := now, updatedAt := now }
      Except.ok (db ++ [note], note)
    | _ :: _ => Except.error (Message.text (validationMessage "Note validation failed" errs))

/-- The `$set` of the body keys on a document, with `updatedAt` renewed;
`owner` is the cast value of the body's `user` key when the body has one. -/
def applyUpdate (now : Nat) (body : NoteBody) (owner : Option ObjectId) (n : Note) : Note :=
  { n with
    title := (setTitle body.title).getD n.title
    content := body.content.getD n.content
    tags := body.tags.getD n.tags
    color := body.color.getD n.color
    user := owner.getD n.user
    updatedAt := now }

/-- The cast of the body's `user` key in an update: absent, or an ObjectId, or
a thrown cast error. -/
def castUpdateUser (body : NoteBody) : Except Message (Option ObjectId) :=
  match body.user with
  | none => Except.ok none
  | some value =>
    match castObjectId value with
    | none => Except.error (Message.castError value "user")
    | some owner => Except.ok (some owner)

/-- Replaces the first document that has the given `_id`. -/
def replaceFirst (id : ObjectId) (f : Note → Note) : Store → Store
  | [] => []
  | n :: ns => if n._id == id then f n :: ns else n :: replaceFirst id f ns

/-- Errors of the update validators: only the paths present in the update,
listed here in the order of the schema. -/
def updateErrors (body : NoteBody) : List (String × String) :=
  (if body.title.isSome then titleErrors (setTitle body.title) else []) ++
  (if body.content.isSome then contentErrors body.content else []) ++
  (if body.color.isSome then colorErrors body.color else [])

/-- The call `Note.findByIdAndUpdate(id, body, { new: true, runValidators: true })`:
the id and the update are cast and the update validators run, each of which
throws on failure; otherwise the document is updated in place and the updated
document (or null) is returned. -/
def Note.findByIdAndUpdate (db : Store) (now : Nat) (id : String) (body : NoteBody) :
    Except Message (Store × Option Note) :=
  match castObjectId id with
  | none => Except.error (Message.castError id "_id")
  | some oid =>
    match castUpdateUser body with
    | Except.error m => Except.error m
    | Except.ok owner =>
      match updateErrors body with
      | [] =>
        let db1 := replaceFirst oid (applyUpdate now body owner) db
        Except.ok (db1, db1.find? fun n => n._id == oid)
      | e :: es => Except.error (Message.updateValidation (e :: es))

/-! ## The controllers (`controllers/notesController.js`) -/

/-- The handler `createNote`. -/
def createNote (db : Store) (now : Nat) (newId : ObjectId) (reqUser : User)
    (body : NoteBody) : Store × Response :=
  match Note.create db now newId
      { title := body.title, content := body.content,
        tags := body.tags.getD [],
        color := if truthy body.color then body.color.getD "" else "#ffffff",
        user := reqUser.id } with
  | Except.ok (db1, note) =>
    (db1, { status := 201, success := true,
            message := some (Message.text "Note created successfully"),
            count := none, data := Data.note note })
  | Except.error msg => (db, caught msg)

/-- The handler `getNoteById`; `id` is `req.params.id`. -/
def getNoteById (db : Store) (reqUser : User) (id : String) : Store × Response :=
  match Note.findById db id with
  | Except.error msg => (db, caught msg)
  | Except.ok none => (db, failure 404 "Note not found")
  | Except.ok (some note) =>
    if note.user.toString != reqUser.id then
      (db, failure 403 "Not authorized to access this note")
    else
      (db, { status := 200, success := true, message := none, count := none,
             data := Data.note note })

/-- The handler `updateNote`; `id` is `req.params.id`. -/
def updateNote (db : Store) (now : Nat) (reqUser : User) (id : String)
    (body : NoteBody) : Store × Response :=
  match Note.findById db id with
  | Except.error msg => (db, caught msg)
  | Except.ok none => (db, failure 404 "Note not found")
  | Except.ok (some note) =>
    if note.user.toString != reqUser.id then
      (db, failure 403 "Not authorized to update this note")
    else
      match Note.findByIdAndUpdate db now id body with
      | Except.ok (db1, updated) =>
        (db1, { status := 200, success := true,
                message := some (Message.text "Note updated successfully"),
                count := none,
                data := match updated with
                  | some n => Data.note n
                  | none => Data.absent })
      | Except.error msg => (db, caught msg)

/-- The handler `deleteNote`; `id` is `req.params.id`. -/
def deleteNote (db : Store) (reqUser : User) (id : String) : Store × Response :=
  match Note.findById db id with
  | Except.error msg => (db, caught msg)
  | Except.ok none => (db, failure 404 "Note not found")
  | Except.ok (some note) =>
    if note.user.toString != reqUser.id then
      (db, failure 403 "Not authorized to delete this note")
    else
      (Note.deleteOne db note,
       { status := 200, success := true,
         message := some (Message.text "Note deleted successfully"),
         count := none, data := Data.empty })

/-! ## The query of `getNotes` -/

/-- The regular-expression engine of the database, for `$regex` with
`$options: 'i'`: a pattern is either rejected with an error or compiled to a
test telling whether a subject string has a match. -/
abbrev RegexEngine := String → Except String (String → Bool)

/-- The filter object built by `getNotes`. -/
structure Query where
  user : String
  or : Option String
  tags : Option (List String)
deriving DecidableEq

/-- The condition `tags: { $in: tagArray }` on an array path: some element of
the document's array is one of the given values. -/
def tagsIn (tagArray : List String) (n : Note) : Bool :=
  n.tags.any fun t => tagArray.contains t

/-- Whether a document satisfies the filter, given the cast value of its
`user` and the compiled `$regex` test of the `$or` clause when there is one. -/
def Query.holds (q : Query) (owner : ObjectId) (test : Option (String → Bool)) (n : Note) :
    Bool :=
  (n.user == owner) &&
  (match test with
   | none => true
   | some m => m n.title || m n.content) &&
  (match q.tags with
   | none => true
   | some tagArray => tagsIn tagArray n)

/-- The sort `{ createdAt: -1 }`. -/
def sortCreatedAtDesc (ns : List Note) : List Note :=
  ns.insertionSort fun a b => b.createdAt ≤ a.createdAt

/-- The query `Note.find(query).sort({ createdAt: -1 })`; a `user` that is no
ObjectId makes the cast of the filter throw, and a pattern that the engine
rejects makes the query throw. -/
def Note.find (rx : RegexEngine) (db : Store) (q : Query) : Except Message (List Note) :=
  match castObjectId q.user with
  | none => Except.error (Message.castError q.user "user")
  | some owner =>
    match q.or with
    | none => Except.ok (sortCreatedAtDesc (db.filter (q.holds owner none)))
    | some pattern =>
      match rx pattern with
      | Except.error msg => Except.error (Message.text msg)
      | Except.ok m => Except.ok (sortCreatedAtDesc (db.filter (q.holds owner (some m))))

/-- The filter object that `getNotes` builds from the query string. -/
def buildQuery (reqUser : User) (search tags : Option String) : Query :=
  { user := reqUser.id,
    or := if truthy search then search else none,
    tags := if truthy tags then tags.map (jsSplit ',') else none }

/-- The handler `getNotes`; it does not write to the store. -/
def getNotes (rx : RegexEngine) (db : Store) (reqUser : User)
    (search tags : Option String) : Response :=
  match Note.find rx db (buildQuery reqUser search tags) with
  | Except.ok notes =>
    { status := 200, success := true, message := none, count := some notes.length,
      data := Data.notes notes }
  | Except.error msg => caught msg

/-! ## The auth gate (`middleware/auth.js`) -/

/-- The decoded token payload; the gate reads its `id`. -/
structure Decoded where
  id : String
deriving DecidableEq

/-- The collaborators of the gate: `jwt.verify(token, secret)` and
`User.findById(id)`, each of which returns or throws. -/
structure AuthEnv where
  verify : String → Except String Decoded
  findById : String → Except String (Option User)

/-- The projection `select('-password')`. -/
def selectMinusPassword (u : User) : User := { u with password := none }

/-- What running the gate leaves behind: the response sent (if any), the value
of `req.user`, the number of calls of `next`, and the arguments of the calls
made to `jwt.verify` and to `User.findById`. -/
structure Outcome where
  response : Option Response
  reqUser : Option User
  nextCalls : Nat
  verified : List String
  lookedUp : List String
deriving DecidableEq

/-- The value of `token` after the header check, `undefined` being `none`. -/
def extractToken (authorization : Option String) : Option String :=
  match authorization with
  | none => none
  | some h =>
    if truthy (some h) && jsStartsWith h "Bearer" then (jsSplit ' ' h)[1]? else none

/-- The middleware `protect`. -/
def protect (env : AuthEnv) (authorization : Option String) : Outcome :=
  let token := extractToken authorization
  if !truthy token then
    { response := some (failure 401 "Not authorized, no token provided"),
      reqUser := none, nextCalls := 0, verified := [], lookedUp := [] }
  else
    let tok := token.getD ""
    match env.verify tok with
    | Except.error _ =>
      { response := some (failure 401 "Not authorized, token invalid or expired"),
        reqUser := none, nextCalls := 0, verified := [tok], lookedUp := [] }
    | Except.ok decoded =>
      match env.findById decoded.id with
      | Except.error _ =>
        { response := some (failure 401 "Not authorized, token invalid or expired"),
          reqUser := none, nextCalls := 0, verified := [tok], lookedUp := [decoded.id] }
      | Except.ok none =>
        { response := some (failure 401 "User not found"),
          reqUser := none, nextCalls := 0, verified := [tok], lookedUp := [decoded.id] }
      | Except.ok (some u) =>
        { response := none, reqUser := some (selectMinusPassword u), nextCalls := 1,
          verified := [tok], lookedUp := [decoded.id] }

/-! ## Sample data -/

/-- A sample user. -/
def ann : User :=
  { _id := ⟨"64b000000000000000000a11", rfl⟩, name := "Ann", email := "ann@x.com",
    password := none, createdAt := 0 }

/-- A second sample user. -/
def bob : User :=
  { _id := ⟨"64b000000000000000000b22", rfl⟩, name := "Bob", email := "bob@x.com",
    password := none, createdAt := 0 }

/-- A note owned by `ann`. -/
def shopping : Note :=
  { _id := ⟨"64b0000000000000000000c1", rfl⟩, title := "Shopping", content := "milk, eggs",
    tags := [], color := "#ffffff", user := ann._id, createdAt := 10, updatedAt := 10 }

/-- A body with no key. -/
def emptyBody : NoteBody :=
  { title := none, content := none, tags := none, color := none, user := none }

/-- The success response of `getNoteById`. -/
def found (note : Note) : Response :=
  { status := 200, success := true, message := none, count := none, data := Data.note note }

/-! ## Notions used in the statements -/

/-- The notes carried by a response, none when it carries no list. -/
def Response.notes (r : Response) : List Note :=
  match r.data with
  | Data.notes ns => ns
  | _ => []

/-- Lower-casing of the letters `A`..`Z`. -/
def asciiLower (s : String) : List Char := s.data.map Char.toLower

/-- Whether `term` occurs in `text` as a substring, letter case ignored. -/
def containsCI (text term : String) : Prop := asciiLower term <:+: asciiLower text

/-- Whether a one-line pattern of ordinary characters and `.` matches at the
start of the subject, letter case ignored. -/
def matchHere : List Char → List Char → Bool
  | [], _ => true
  | _ :: _, [] => false
  | p :: ps, c :: cs =>
    (if p = '.' then c != '\n' else p.toLower == c.toLower) && matchHere ps cs

/-- Whether the pattern matches at some position of the subject. -/
def matchAnywhere (ps : List Char) : List Char → Bool
  | [] => matchHere ps []
  | c :: cs => matchHere ps (c :: cs) || matchAnywhere ps cs

/-- Characters with a special meaning in a pattern, `.` apart. -/
def isSpecial (c : Char) : Bool :=
  ['\\', '^', '$', '*', '+', '?', '(', ')', '[', ']', '{', '}', '|'].contains c

/-- A sample engine for patterns made of ordinary characters and `.` (any
character but a line feed); it rejects every other pattern. -/
def sampleEngine : RegexEngine := fun pattern =>
  if pattern.data.any isSpecial then Except.error "pattern not handled by the sample engine"
  else Except.ok fun subject => matchAnywhere pattern.data subject.data

/-- A second note of `ann`, created later and tagged. -/
def ideas : Note :=
  { _id := ⟨"64b0000000000000000000c2", rfl⟩, title := "Ideas", content := "a.c and more",
    tags := ["work", "later"], color := "#ffeeaa", user := ann._id,
    createdAt := 30, updatedAt := 30 }

/-- A note of `bob`. -/
def secret : Note :=
  { _id := ⟨"64b0000000000000000000c3", rfl⟩, title := "Shopping", content := "milk, eggs",
    tags := ["work"], color := "#ffffff", user := bob._id, createdAt := 20, updatedAt := 20 }

/-- A body whose only key is `user`, naming `bob`. -/
def takeover : NoteBody := { emptyBody with user := some bob.id }

/-- The success response of `getNotes`. -/
def listed (notes : List Note) : Response :=
  { status := 200, success := true, message := none, count := some notes.length,
    data := Data.notes notes }

/-- The response of the gate when no token is found. -/
def noToken : Outcome :=
  { response := some (failure 401 "Not authorized, no token provided"),
    reqUser := none, nextCalls := 0, verified := [], lookedUp := [] }

/-- The stored document of `ann`, with her password hash. -/
def annStored : User := { ann with password := some "$2a$10$hash" }

/-- Sample collaborators: the token `good` verifies to the id of `ann`, the
token `gone` to an id without a user, any other token is refused; the lookup
knows `ann` only. -/
def sampleEnv : AuthEnv :=
  { verify := fun token =>
      if token = "good" then Except.ok ⟨ann.id⟩
      else if token = "gone" then Except.ok ⟨bob.id⟩
      else Except.error "invalid signature",
    findById := fun id => Except.ok (if id = ann.id then some annStored else none) }

/-- Collaborators with the same token check whose user lookup throws. -/
def outageEnv : AuthEnv :=
  { verify := sampleEnv.verify,
    findById := fun _ => Except.error "connection lost" }

/-- The success response of `createNote`. -/
def created (note : Note) : Response :=
  { status := 201, success := true, message := some (Message.text "Note created successfully"),
    count := none, data := Data.note note }

/-- A create body whose title has a space on each side; no tags, no color. -/
def padded : NoteBody :=
  { emptyBody with title := some " Shopping ", content := some "milk, eggs" }

/-- A fresh identifier. -/
def freshId : ObjectId := ⟨"64b0000000000000000000c9", rfl⟩

/-- The title of the note a response carries. -/
def Response.title (r : Response) : Option String :=
  match r.data with
  | Data.note n => some n.title
  | _ => none

/-- A create body with the color `notacolor`. -/
def garish : NoteBody :=
  { emptyBody with title := some "Shopping", content := some "milk, eggs",
                   color := some "notacolor" }

/-- A create body of `ann` whose `user` key names `bob`. -/
def forged : NoteBody :=
  { emptyBody with title := some "Shopping", content := some "milk, eggs",
                   user := some bob.id }

/-! ## The Dashboard filter (`frontend/src/pages/Dashboard.jsx`) -/

/-- A note as the Dashboard holds it; `category` may be undefined. -/
structure DashboardNote where
  _id : String
  title : String
  content : String
  category : Option String
deriving DecidableEq

/-- The method `String.prototype.includes`. -/
def jsIncludes (s t : String) : Bool := decide (t.data <:+: s.data)

/-- The function `filterNotes` of the Dashboard: the list it hands to
`setFilteredNotes`, from the state values `notes`, `searchTerm` and
`filterCategory`.  The built-in `toLowerCase` is a parameter. -/
def filterNotes (toLowerCase : String → String) (notes : List DashboardNote)
    (searchTerm filterCategory : String) : List DashboardNote :=
  let filtered := notes
  let filtered :=
    if filterCategory != "all" then
      filtered.filter fun note => note.category == some filterCategory
    else filtered
  let filtered :=
    if truthy (some searchTerm) then
      filtered.filter fun note =>
        jsIncludes (toLowerCase note.title) (toLowerCase searchTerm) ||
        jsIncludes (toLowerCase note.content) (toLowerCase searchTerm)
    else filtered
  filtered

/-- The two conditions of the filter, as the specification words them: the
category filter is `all` or the note's category equals it, and the search term
is empty or the lower-cased title or content contains the lower-cased term. -/
def keptByFilter (toLowerCase : String → String) (searchTerm filterCategory : String)
    (note : DashboardNote) : Prop :=
  (filterCategory = "all" ∨ note.category = some filterCategory) ∧
  (searchTerm = "" ∨
    (toLowerCase searchTerm).data <:+: (toLowerCase note.title).data ∨
    (toLowerCase searchTerm).data <:+: (toLowerCase note.content).data)

/-- The conditions are decidable. -/
instance keptByFilterDecidable (toLowerCase : String → String)
    (searchTerm filterCategory : String) (note : DashboardNote) :
    Decidable (keptByFilter toLowerCase searchTerm filterCategory note) := by
  unfold keptByFilter
  exact inferInstance

/-- Lower-casing of the letters `A`..`Z` only, a stand-in for `toLowerCase` on
ASCII strings. -/
def lowerAscii (s : String) : String := String.mk (asciiLower s)

/-- Three Dashboard notes. -/
def board : List DashboardNote :=
  [{ _id := "1", title := "Shopping", content := "milk, eggs", category := some "personal" },
   { _id := "2", title := "Standup", content := "Milk the backlog", category := some "work" },
   { _id := "3", title := "Taxes", content := "due in April", category := none }]

/-! # Theorems -/

/-! ## The cast of identifiers -/

/-- A lower-case hexadecimal digit is its own lower-case form. -/
theorem lowerHexDigit_fixed : ∀ c ∈ lowerHexDigits, lowerHexDigit c = c := by
  decide

/-- The lower-case form of a character is a lower-case hexadecimal digit
exactly for the twenty-two hexadecimal digits. -/
theorem lowerHexDigit_mem (c : Char) :
    lowerHexDigit c ∈ lowerHexDigits ↔
      c ∈ lowerHexDigits ∨ c ∈ ['A', 'B', 'C', 'D', 'E', 'F'] := by
  unfold lowerHexDigit
  split_ifs with h1 h2 h3 h4 h5 h6
  · subst h1; decide
  · subst h2; decide
  · subst h3; decide
  · subst h4; decide
  · subst h5; decide
  · subst h6; decide
  · simp [h1, h2, h3, h4, h5, h6]

/-- The string form of an ObjectId is unchanged by lower-casing. -/
theorem lowerHex_fixed (s : String) (h : isObjectIdHex s = true) : lowerHex s = s := by
  have hall : ∀ c ∈ s.data, lowerHexDigit c = c := by
    intro c hc
    apply lowerHexDigit_fixed
    simp only [isObjectIdHex, Bool.and_eq_true, List.all_eq_true] at h
    simpa using h.2 c hc
  unfold lowerHex
  rw [List.map_congr_left hall, List.map_id']

/-- The string form of an ObjectId casts back to that ObjectId. -/
theorem castObjectId_toString (o : ObjectId) : castObjectId o.toString = some o := by
  obtain ⟨s, hs⟩ := o
  have key : ∀ t, t = s →
      (if h : isObjectIdHex t = true then some (ObjectId.mk t h) else none) =
        some (ObjectId.mk s hs) := by
    intro t ht
    subst ht
    simp [hs]
  exact key (lowerHex s) (lowerHex_fixed s hs)

/-- The strings that cast to an ObjectId: 24 hexadecimal digits. -/
theorem castObjectId_isSome_iff (s : String) :
    (castObjectId s).isSome = true ↔
      s.data.length = 24 ∧
      ∀ c ∈ s.data, c ∈ lowerHexDigits ∨ c ∈ ['A', 'B', 'C', 'D', 'E', 'F'] := by
  have hh : isObjectIdHex (lowerHex s) = true ↔
      s.data.length = 24 ∧
      ∀ c ∈ s.data, c ∈ lowerHexDigits ∨ c ∈ ['A', 'B', 'C', 'D', 'E', 'F'] := by
    simp only [isObjectIdHex, lowerHex, Bool.and_eq_true, List.all_eq_true, List.length_map,
      beq_iff_eq, List.mem_map, forall_exists_index, and_imp, forall_apply_eq_imp_iff₂]
    constructor
    · rintro ⟨h1, h2⟩
      exact ⟨h1, fun c hc => (lowerHexDigit_mem c).1 (by simpa using h2 c hc)⟩
    · rintro ⟨h1, h2⟩
      exact ⟨h1, fun c hc => by simpa using (lowerHexDigit_mem c).2 (h2 c hc)⟩
  unfold castObjectId
  by_cases h : isObjectIdHex (lowerHex s) = true
  · simp only [h, dite_true, Option.isSome_some, true_iff]
    exact hh.1 h
  · simp only [h, dite_false, Option.isSome_none, Bool.false_eq_true, false_iff]
    exact fun h2 => h (hh.2 h2)

/-- The ObjectId a string casts to has the lower-case form of the string. -/
theorem castObjectId_eq_some (s : String) (oid : ObjectId) (h : castObjectId s = some oid) :
    oid.toString = lowerHex s := by
  unfold castObjectId at h
  split at h
  · cases h; rfl
  · cases h

/-- The lookup by the string form of an ObjectId. -/
theorem findById_toString (db : Store) (oid : ObjectId) :
    Note.findById db oid.toString = Except.ok (db.find? fun n => n._id == oid) := by
  simp [Note.findById, castObjectId_toString]

/-- The lookup by a string that casts to an ObjectId. -/
theorem findById_of_cast (db : Store) (id : String) (oid : ObjectId)
    (h : castObjectId id = some oid) :
    Note.findById db id = Except.ok (db.find? fun n => n._id == oid) := by
  simp [Note.findById, h]

/-! ## Ownership enforcement -/

/-- C1: when the note stored under an id is owned by someone whose id string
differs from the caller's id, `getNoteById`, `updateNote` and `deleteNote`
answer 403 with their respective message and return the store as it was, so
the owner still reads the same note afterwards. -/
theorem foreign_caller_forbidden (db : Store) (now : Nat) (caller : User) (id : String)
    (n : Note) (body : NoteBody)
    (hn : Note.findById db id = Except.ok (some n)) (hne : caller.id ≠ n.user.toString) :
    getNoteById db caller id = (db, failure 403 "Not authorized to access this note") ∧
    updateNote db now caller id body = (db, failure 403 "Not authorized to update this note") ∧
    deleteNote db caller id = (db, failure 403 "Not authorized to delete this note") ∧
    ∀ owner : User, owner.id = n.user.toString →
      ∀ db1 ∈ [(getNoteById db caller id).1, (updateNote db now caller id body).1,
               (deleteNote db caller id).1],
        Note.findById db1 id = Except.ok (some n) ∧
        getNoteById db1 owner id = (db1, found n) := by
  have hb : (n.user.toString != caller.id) = true := by
    simp only [bne_iff_ne, ne_eq]
    exact fun h => hne h.symm
  have h1 : getNoteById db caller id =
      (db, failure 403 "Not authorized to access this note") := by
    simp only [getNoteById, hn, hb, if_true]
  have h2 : updateNote db now caller id body =
      (db, failure 403 "Not authorized to update this note") := by
    simp only [updateNote, hn, hb, if_true]
  have h3 : deleteNote db caller id =
      (db, failure 403 "Not authorized to delete this note") := by
    simp only [deleteNote, hn, hb, if_true]
  refine ⟨h1, h2, h3, ?_⟩
  intro owner ho db1 hdb1
  rw [h1, h2, h3] at hdb1
  have : db1 = db := by simpa using hdb1
  subst this
  refine ⟨hn, ?_⟩
  have hb2 : (n.user.toString != owner.id) = false := by
    simp [ho]
  simp only [getNoteById, hn, hb2, found]
  rfl

/-- Witness of C1: `bob` against the note of `ann`. -/
theorem foreign_caller_forbidden_witness :
    Note.findById [shopping] shopping._id.toString = Except.ok (some shopping) ∧
    bob.id ≠ shopping.user.toString ∧
    deleteNote [shopping] bob shopping._id.toString =
      ([shopping], failure 403 "Not authorized to delete this note") :=
  ⟨by decide, by decide,
   (foreign_caller_forbidden [shopping] 20 bob shopping._id.toString shopping emptyBody
      (by decide) (by decide)).2.2.1⟩

/-- C4: for a well-formed id (a string that casts to an ObjectId) that no
stored note has, `getNoteById`, `updateNote` and `deleteNote` answer 404 'Note
not found' for every caller and return the store as it was; in particular
none of them answers 403. -/
theorem missing_note_not_found (db : Store) (now : Nat) (caller : User) (id : String)
    (oid : ObjectId) (body : NoteBody)
    (hid : castObjectId id = some oid) (habs : ∀ n ∈ db, n._id ≠ oid) :
    getNoteById db caller id = (db, failure 404 "Note not found") ∧
    updateNote db now caller id body = (db, failure 404 "Note not found") ∧
    deleteNote db caller id = (db, failure 404 "Note not found") ∧
    (getNoteById db caller id).2.status ≠ 403 ∧
    (updateNote db now caller id body).2.status ≠ 403 ∧
    (deleteNote db caller id).2.status ≠ 403 := by
  have hn : Note.findById db id = Except.ok none := by
    rw [findById_of_cast db id oid hid]
    congr 1
    simp only [List.find?_eq_none]
    intro n hmem
    simpa using habs n hmem
  have h1 : getNoteById db caller id = (db, failure 404 "Note not found") := by
    simp only [getNoteById, hn]
  have h2 : updateNote db now caller id body = (db, failure 404 "Note not found") := by
    simp only [updateNote, hn]
  have h3 : deleteNote db caller id = (db, failure 404 "Note not found") := by
    simp only [deleteNote, hn]
  rw [h1, h2, h3]
  exact ⟨rfl, rfl, rfl, by simp [failure], by simp [failure], by simp [failure]⟩

/-- Witness of C4: the id of `bob`, which no note of a one-note store has. -/
theorem missing_note_not_found_witness :
    castObjectId bob.id = some bob._id ∧
    (∀ n ∈ [shopping], n._id ≠ bob._id) ∧
    deleteNote [shopping] ann bob.id = ([shopping], failure 404 "Note not found") :=
  ⟨by decide, by decide,
   (missing_note_not_found [shopping] 20 ann bob.id bob._id emptyBody (by decide)
      (by decide)).2.2.1⟩

/-- An id that is no ObjectId makes the lookup throw: `getNoteById`,
`updateNote` and `deleteNote` answer 500 from their `catch`, whoever the
caller is, and return the store as it was. -/
theorem malformed_id_is_500 (db : Store) (now : Nat) (caller : User) (id : String)
    (body : NoteBody) (hid : castObjectId id = none) :
    getNoteById db caller id = (db, caught (Message.castError id "_id")) ∧
    updateNote db now caller id body = (db, caught (Message.castError id "_id")) ∧
    deleteNote db caller id = (db, caught (Message.castError id "_id")) := by
  have hn : Note.findById db id = Except.error (Message.castError id "_id") := by
    simp [Note.findById, hid]
  exact ⟨by simp only [getNoteById, hn], by simp only [updateNote, hn],
    by simp only [deleteNote, hn]⟩

/-- The id `abc` is no ObjectId, and the upper-case form of a stored id finds
the stored note. -/
theorem id_cast_examples :
    (getNoteById [shopping] ann "abc").2.status = 500 ∧
    (getNoteById [shopping] ann "64B0000000000000000000C1").2 = found shopping ∧
    (deleteNote [shopping] ann "64B0000000000000000000C1").1 = [] := by
  decide

/-! ## Listing -/

/-- The list that `getNotes` sends, by the shape of the filter. -/
theorem getNotes_notes (rx : RegexEngine) (db : Store) (u : User) (search tags : Option String) :
    (getNotes rx db u search tags).notes =
      match (buildQuery u search tags).or with
      | none => sortCreatedAtDesc (db.filter ((buildQuery u search tags).holds u._id none))
      | some p =>
        match rx p with
        | Except.error _ => []
        | Except.ok m =>
          sortCreatedAtDesc (db.filter ((buildQuery u search tags).holds u._id (some m))) := by
  have hcast : castObjectId (buildQuery u search tags).user = some u._id :=
    castObjectId_toString u._id
  unfold getNotes Note.find
  rw [hcast]
  cases h : (buildQuery u search tags).or with
  | none => simp [Response.notes]
  | some p =>
    cases h2 : rx p with
    | error e => simp [Response.notes, caught, h2]
    | ok m => simp [Response.notes, h2]

/-- Sorting keeps the elements. -/
theorem mem_sortCreatedAtDesc (n : Note) (ns : List Note) :
    n ∈ sortCreatedAtDesc ns ↔ n ∈ ns :=
  (List.perm_insertionSort _ ns).mem_iff

/-- The result of the sort is in descending order of `createdAt`. -/
theorem sorted_sortCreatedAtDesc (ns : List Note) :
    (sortCreatedAtDesc ns).Pairwise fun a b => b.createdAt ≤ a.createdAt := by
  haveI : IsTotal Note fun a b => b.createdAt ≤ a.createdAt :=
    ⟨fun a b => Nat.le_total b.createdAt a.createdAt⟩
  haveI : IsTrans Note fun a b => b.createdAt ≤ a.createdAt :=
    ⟨fun _ _ _ h1 h2 => Nat.le_trans h2 h1⟩
  exact List.sorted_insertionSort _ ns

/-- The owner condition of the filter, in terms of id strings. -/
theorem owner_eq_iff (n : Note) (u : User) :
    (n.user == u._id) = true ↔ n.user.toString = u.id := by
  rw [beq_iff_eq]
  constructor
  · intro h; rw [h]; rfl
  · intro h
    cases hn : n.user with
    | mk s hs =>
      cases hu : u._id with
      | mk t ht =>
        have : s = t := by simpa [User.id, hn, hu] using h
        subst this
        rfl

/-- C3: every note that `getNotes` sends is a stored note whose owner is the
caller, whatever the store, the search and tags parameters and the
regular-expression engine. -/
theorem getNotes_only_own (rx : RegexEngine) (db : Store) (caller : User)
    (search tags : Option String) :
    ∀ n ∈ (getNotes rx db caller search tags).notes,
      n.user.toString = caller.id ∧ n ∈ db := by
  intro n hn
  rw [getNotes_notes] at hn
  have key : ∀ test, n ∈ sortCreatedAtDesc (db.filter ((buildQuery caller search tags).holds caller._id test)) →
      n.user.toString = caller.id ∧ n ∈ db := by
    intro test h
    rw [mem_sortCreatedAtDesc, List.mem_filter] at h
    refine ⟨?_, h.1⟩
    have h2 := h.2
    simp only [Query.holds, Bool.and_eq_true] at h2
    exact (owner_eq_iff n caller).1 h2.1.1
  cases h : (buildQuery caller search tags).or with
  | none => simp only [h] at hn; exact key none hn
  | some p =>
    cases h2 : rx p with
    | error e => simp only [h, h2, List.not_mem_nil] at hn
    | ok m => simp only [h, h2] at hn; exact key (some m) hn

/-- Witness of C3: `bob`'s note is stored but the list sent to `ann` has only
her notes. -/
theorem getNotes_only_own_witness :
    shopping ∈ (getNotes sampleEngine [shopping, secret] ann (some "milk") (some "")).notes ∧
    shopping.user.toString = ann.id ∧ shopping ∈ [shopping, secret] :=
  ⟨by decide,
   getNotes_only_own sampleEngine [shopping, secret] ann (some "milk") (some "") shopping
     (by decide)⟩

/-- What the filter of `getNotes` asks of a note, clause by clause. -/
theorem holds_buildQuery (u : User) (search tags : Option String)
    (test : Option (String → Bool)) (n : Note) :
    (buildQuery u search tags).holds u._id test n = true ↔
      n.user.toString = u.id ∧
      (match test with
       | none => True
       | some m => m n.title = true ∨ m n.content = true) ∧
      (truthy tags = false ∨ ∃ t, tags = some t ∧ ∃ x ∈ n.tags, x ∈ jsSplit ',' t) := by
  have htag : (match (buildQuery u search tags).tags with
      | none => true
      | some tagArray => tagsIn tagArray n) = true ↔
      (truthy tags = false ∨ ∃ t, tags = some t ∧ ∃ x ∈ n.tags, x ∈ jsSplit ',' t) := by
    cases tags with
    | none => simp [buildQuery, truthy]
    | some t =>
      by_cases ht : t = ""
      · subst ht; simp [buildQuery, truthy]
      · simp [buildQuery, truthy, ht, tagsIn]
  unfold Query.holds
  rw [Bool.and_eq_true, Bool.and_eq_true, htag, owner_eq_iff, and_assoc]
  cases test with
  | none => simp
  | some m => simp

/-- Membership in the list that `getNotes` sends: a stored note of the caller
that passes the search clause (when a non-empty search is given and the engine
accepts it) and the tags clause (when a non-empty tags parameter is given). -/
theorem mem_getNotes (rx : RegexEngine) (db : Store) (u : User) (search tags : Option String)
    (n : Note) :
    n ∈ (getNotes rx db u search tags).notes ↔
      n ∈ db ∧ n.user.toString = u.id ∧
      (truthy search = false ∨
        ∃ s m, search = some s ∧ rx s = Except.ok m ∧ (m n.title = true ∨ m n.content = true)) ∧
      (truthy tags = false ∨
        ∃ t, tags = some t ∧ ∃ x ∈ n.tags, x ∈ jsSplit ',' t) := by
  rw [getNotes_notes]
  cases hs : truthy search with
  | false =>
    have hor : (buildQuery u search tags).or = none := by simp [buildQuery, hs]
    rw [hor]
    simp only [mem_sortCreatedAtDesc, List.mem_filter, holds_buildQuery]
    simp
  | true =>
    cases search with
    | none => simp [truthy] at hs
    | some s =>
      have hor : (buildQuery u (some s) tags).or = some s := by simp [buildQuery, hs]
      rw [hor]
      dsimp only
      cases hrx : rx s with
      | error e => simp [hrx]
      | ok m =>
        dsimp only
        rw [mem_sortCreatedAtDesc, List.mem_filter, holds_buildQuery]
        simp [hrx]

/-- C5, at the failing input: the search string `.` is handed to the engine
as a pattern, so with any engine in which `.` matches the title 'Shopping'
the list sent for the search `.` holds a note whose title and content
contain no `.` at all. -/
theorem getNotes_search_dot_matches_any (rx : RegexEngine) (m : String → Bool)
    (hrx : rx "." = Except.ok m) (hm : m shopping.title = true) :
    getNotes rx [shopping] ann (some ".") none = listed [shopping] ∧
    ¬ containsCI shopping.title "." ∧ ¬ containsCI shopping.content "." := by
  refine ⟨?_, by unfold containsCI; decide, by unfold containsCI; decide⟩
  have hq : buildQuery ann (some ".") none = { user := ann.id, or := some ".", tags := none } := by
    decide
  have hcast : castObjectId ann.id = some ann._id := castObjectId_toString ann._id
  have hh : Query.holds { user := ann.id, or := some ".", tags := none } ann._id (some m)
      shopping = true := by
    simp [Query.holds, hm]
    decide
  simp [getNotes, Note.find, hq, hcast, hrx, List.filter, hh, sortCreatedAtDesc, listed]

/-- Witness of C5's failing input: the sample engine. -/
theorem getNotes_search_dot_matches_any_witness :
    sampleEngine "." = Except.ok (fun subject => matchAnywhere ".".data subject.data) ∧
    matchAnywhere ".".data shopping.title.data = true ∧
    getNotes sampleEngine [shopping] ann (some ".") none = listed [shopping] :=
  ⟨rfl, by decide,
   (getNotes_search_dot_matches_any sampleEngine
      (fun subject => matchAnywhere ".".data subject.data) rfl (by decide)).1⟩

/-- With a search string that the engine treats literally (its compiled test
is the case-insensitive substring test), `getNotes` sends exactly the caller's
notes whose title or content contains the string, newest first. -/
theorem getNotes_search_literal (rx : RegexEngine) (db : Store) (caller : User) (s : String)
    (m : String → Bool) (hs : s ≠ "") (hrx : rx s = Except.ok m)
    (hlit : ∀ x, m x = true ↔ containsCI x s) :
    ∃ ns, getNotes rx db caller (some s) none = listed ns ∧
      (∀ n, n ∈ ns ↔ n ∈ db ∧ n.user.toString = caller.id ∧
        (containsCI n.title s ∨ containsCI n.content s)) ∧
      ns.Pairwise fun a b => b.createdAt ≤ a.createdAt := by
  have hor : (buildQuery caller (some s) none).or = some s := by simp [buildQuery, truthy, hs]
  refine ⟨sortCreatedAtDesc (db.filter ((buildQuery caller (some s) none).holds caller._id (some m))),
    ?_, ?_, sorted_sortCreatedAtDesc _⟩
  · have hcast : castObjectId (buildQuery caller (some s) none).user = some caller._id :=
      castObjectId_toString caller._id
    simp [getNotes, Note.find, hcast, hor, hrx, listed]
  · intro n
    rw [mem_sortCreatedAtDesc, List.mem_filter, holds_buildQuery]
    simp [truthy, hlit]

/-- A non-empty search string that the engine rejects makes `getNotes` answer
500 with the engine's message, whatever the store holds. -/
theorem getNotes_rejected_pattern (rx : RegexEngine) (db : Store) (caller : User) (s e : String)
    (tags : Option String) (hs : s ≠ "") (hrx : rx s = Except.error e) :
    getNotes rx db caller (some s) tags = failure 500 e := by
  have hor : (buildQuery caller (some s) tags).or = some s := by simp [buildQuery, truthy, hs]
  have hcast : castObjectId (buildQuery caller (some s) tags).user = some caller._id :=
    castObjectId_toString caller._id
  simp [getNotes, Note.find, hcast, hor, hrx, caught, failure]

/-- C6 as stated fails for the empty tags parameter: no tag filter is applied,
so a note without tags is sent although it shares no tag with the pieces of
the parameter. -/
theorem getNotes_empty_tags_unfiltered :
    ¬ (shopping ∈ (getNotes sampleEngine [shopping] ann none (some "")).notes ↔
        ∃ x ∈ shopping.tags, x ∈ jsSplit ',' "") := by
  intro h
  have h1 : shopping ∈ (getNotes sampleEngine [shopping] ann none (some "")).notes := by decide
  obtain ⟨x, hx, _⟩ := h.1 h1
  simp [shopping] at hx

/-- C6, amended: for a non-empty tags parameter `t`, the notes sent are the
stored notes of the caller that have a tag among the pieces of `t` split on
`,` and, when a non-empty search is given too, whose title or content passes
the engine's test for the search string. -/
theorem getNotes_tags_filter (rx : RegexEngine) (db : Store) (caller : User)
    (search : Option String) (t : String) (ht : t ≠ "") (n : Note) :
    n ∈ (getNotes rx db caller search (some t)).notes ↔
      n ∈ db ∧ n.user.toString = caller.id ∧
      (∃ x ∈ n.tags, x ∈ jsSplit ',' t) ∧
      (truthy search = false ∨
        ∃ s m, search = some s ∧ rx s = Except.ok m ∧
          (m n.title = true ∨ m n.content = true)) := by
  rw [mem_getNotes]
  have htt : truthy (some t) = true := by simp [truthy, ht]
  constructor
  · rintro ⟨h1, h2, h3, h4⟩
    refine ⟨h1, h2, ?_, h3⟩
    rcases h4 with h4 | ⟨t1, ht1, hx⟩
    · rw [htt] at h4; exact absurd h4 (by decide)
    · cases ht1; exact hx
  · rintro ⟨h1, h2, h3, h4⟩
    exact ⟨h1, h2, h4, Or.inr ⟨t, rfl, h3⟩⟩

/-- Witness of C6: the tags parameter `home,work` with the search `idea`. -/
theorem getNotes_tags_filter_witness :
    "home,work" ≠ "" ∧
    (ideas ∈ (getNotes sampleEngine [shopping, ideas, secret] ann (some "idea")
        (some "home,work")).notes ↔
      ideas ∈ [shopping, ideas, secret] ∧ ideas.user.toString = ann.id ∧
      (∃ x ∈ ideas.tags, x ∈ jsSplit ',' "home,work") ∧
      (truthy (some "idea") = false ∨
        ∃ s m, some "idea" = some s ∧ sampleEngine s = Except.ok m ∧
          (m ideas.title = true ∨ m ideas.content = true))) :=
  ⟨by decide,
   getNotes_tags_filter sampleEngine [shopping, ideas, secret] ann (some "idea") "home,work"
     (by decide) ideas⟩

/-! ## Updating -/

/-- C2, at the failing input: the owner `ann` updates her note with a body
whose `user` key names `bob`; the update succeeds, the stored note is then
owned by `bob`, and `ann` is refused her former note. -/
theorem updateNote_reassigns_owner :
    (updateNote [shopping] 20 ann shopping._id.toString takeover).2.status = 200 ∧
    Note.findById (updateNote [shopping] 20 ann shopping._id.toString takeover).1
        shopping._id.toString =
      Except.ok (some { shopping with user := bob._id, updatedAt := 20 }) ∧
    shopping.user = ann._id ∧ ann._id ≠ bob._id ∧
    (getNoteById (updateNote [shopping] 20 ann shopping._id.toString takeover).1 ann
        shopping._id.toString).2 =
      failure 403 "Not authorized to access this note" := by
  decide

/-- Looking up the id whose document was replaced finds the replacement, when
the replacement keeps the `_id`. -/
theorem find_replaceFirst (db : Store) (oid : ObjectId) (f : Note → Note)
    (hf : ∀ n, (f n)._id = n._id) :
    (replaceFirst oid f db).find? (fun n => n._id == oid) =
      (db.find? fun n => n._id == oid).map f := by
  induction db with
  | nil => rfl
  | cons a as ih =>
    by_cases h : (a._id == oid) = true
    · have h2 : ((f a)._id == oid) = true := by rw [hf]; exact h
      simp [replaceFirst, h, List.find?, h2]
    · have h3 : (a._id == oid) = false := by simpa using h
      simp only [replaceFirst, h3, List.find?]
      simpa using ih

/-- An update by the owner whose body has no `user` key leaves the owner of
the stored note as it was. -/
theorem updateNote_keeps_owner_without_user_key (db : Store) (now : Nat) (caller : User)
    (id : String) (n : Note) (body : NoteBody)
    (hn : Note.findById db id = Except.ok (some n)) (ho : n.user.toString = caller.id)
    (hb : body.user = none) :
    ∃ n1, Note.findById (updateNote db now caller id body).1 id = Except.ok (some n1) ∧
      n1.user = n.user := by
  have hc : (n.user.toString != caller.id) = false := by simp [ho]
  cases hcast : castObjectId id with
  | none => simp [Note.findById, hcast] at hn
  | some oid =>
    have hfind : db.find? (fun n => n._id == oid) = some n := by
      simpa [Note.findById, hcast] using hn
    have hu : castUpdateUser body = Except.ok none := by simp [castUpdateUser, hb]
    unfold updateNote
    simp only [hn, hc, Bool.false_eq_true, if_false]
    unfold Note.findByIdAndUpdate
    simp only [hcast, hu]
    cases he : updateErrors body with
    | nil =>
      refine ⟨applyUpdate now body none n, ?_, rfl⟩
      simp only [findById_of_cast _ id oid hcast]
      rw [find_replaceFirst db oid (applyUpdate now body none) (fun _ => rfl), hfind]
      rfl
    | cons e es => exact ⟨n, hn, rfl⟩

/-! ## The auth gate -/

/-- Splitting never yields the empty list. -/
theorem splitChars_ne_nil (sep : Char) (cs : List Char) : splitChars sep cs ≠ [] := by
  cases cs with
  | nil => simp [splitChars]
  | cons c cs =>
    unfold splitChars
    split
    · simp
    · split <;> simp

/-- A leading character other than the separator joins the first piece and
leaves the later pieces as they are. -/
theorem splitChars_tail_cons (sep c : Char) (cs : List Char) (h : c ≠ sep) :
    (splitChars sep (c :: cs)).tail = (splitChars sep cs).tail := by
  conv_lhs => unfold splitChars
  rw [if_neg h]
  cases hs : splitChars sep cs with
  | nil => exact absurd hs (splitChars_ne_nil sep cs)
  | cons p ps => rfl

/-- The second piece of a run of separators, when there is one, is empty. -/
theorem splitChars_replicate_second (sep : Char) (k : Nat) :
    (splitChars sep (List.replicate k sep)).tail.head? = none ∨
    (splitChars sep (List.replicate k sep)).tail.head? = some [] := by
  cases k with
  | zero => left; rfl
  | succ k =>
    right
    cases k with
    | zero => simp [List.replicate, splitChars]
    | succ k => simp [List.replicate, splitChars]

/-- After `Bearer` followed by spaces only, the token is undefined or empty. -/
theorem extractToken_bearer_spaces (k : Nat) :
    truthy (extractToken (some (String.mk ("Bearer".data ++ List.replicate k ' ')))) = false := by
  have hsplit : (splitChars ' ' ("Bearer".data ++ List.replicate k ' ')).tail =
      (splitChars ' ' (List.replicate k ' ')).tail := by
    show (splitChars ' ' ('B' :: 'e' :: 'a' :: 'r' :: 'e' :: 'r' :: List.replicate k ' ')).tail = _
    rw [splitChars_tail_cons _ _ _ (by decide), splitChars_tail_cons _ _ _ (by decide),
      splitChars_tail_cons _ _ _ (by decide), splitChars_tail_cons _ _ _ (by decide),
      splitChars_tail_cons _ _ _ (by decide), splitChars_tail_cons _ _ _ (by decide)]
  have hidx : ∀ l : List (List Char), (l.map String.mk)[1]? = l.tail.head?.map String.mk := by
    intro l
    cases l with
    | nil => rfl
    | cons a as => cases as <;> simp
  unfold extractToken
  split
  · rfl
  · rename_i h heq
    cases heq
    split
    · unfold jsSplit
      rw [hidx]
      show truthy (Option.map String.mk
        (splitChars ' ' ("Bearer".data ++ List.replicate k ' ')).tail.head?) = false
      rw [hsplit]
      rcases splitChars_replicate_second ' ' k with h0 | h0 <;> rw [h0] <;> rfl
    · rfl

/-- The gate without a usable token: the no-token response, nothing else. -/
theorem protect_of_not_truthy (env : AuthEnv) (authorization : Option String)
    (h : truthy (extractToken authorization) = false) : protect env authorization = noToken := by
  simp [protect, h, noToken]

/-- C7: when the Authorization header is missing, or does not start with
`Bearer`, or has only spaces after `Bearer`, the gate answers 401 'Not
authorized, no token provided', does not call `next`, leaves `req.user`
unset and calls neither `jwt.verify` nor `User.findById`. -/
theorem protect_no_token (env : AuthEnv) (authorization : Option String)
    (h : authorization = none ∨
      (∃ hdr, authorization = some hdr ∧ jsStartsWith hdr "Bearer" = false) ∨
      (∃ k, authorization = some (String.mk ("Bearer".data ++ List.replicate k ' ')))) :
    protect env authorization =
      { response := some (failure 401 "Not authorized, no token provided"),
        reqUser := none, nextCalls := 0, verified := [], lookedUp := [] } := by
  apply protect_of_not_truthy
  rcases h with h | ⟨hdr, h, hp⟩ | ⟨k, h⟩
  · subst h; rfl
  · subst h; simp [extractToken, hp, truthy]
  · subst h; exact extractToken_bearer_spaces k

/-- Witness of C7: the header `Bearer ` with nothing after the space. -/
theorem protect_no_token_witness :
    (∃ k, some "Bearer " = some (String.mk ("Bearer".data ++ List.replicate k ' '))) ∧
    protect sampleEnv (some "Bearer ") = noToken :=
  ⟨⟨1, rfl⟩, protect_no_token sampleEnv (some "Bearer ") (Or.inr (Or.inr ⟨1, rfl⟩))⟩

/-- The gate with a usable token, by what the collaborators return. -/
theorem protect_cases (env : AuthEnv) (authorization : Option String) (tok : String)
    (ht : extractToken authorization = some tok) (hne : tok ≠ "") :
    protect env authorization =
      match env.verify tok with
      | Except.error _ =>
        { response := some (failure 401 "Not authorized, token invalid or expired"),
          reqUser := none, nextCalls := 0, verified := [tok], lookedUp := [] }
      | Except.ok decoded =>
        match env.findById decoded.id with
        | Except.error _ =>
          { response := some (failure 401 "Not authorized, token invalid or expired"),
            reqUser := none, nextCalls := 0, verified := [tok], lookedUp := [decoded.id] }
        | Except.ok none =>
          { response := some (failure 401 "User not found"),
            reqUser := none, nextCalls := 0, verified := [tok], lookedUp := [decoded.id] }
        | Except.ok (some u) =>
          { response := none, reqUser := some (selectMinusPassword u), nextCalls := 1,
            verified := [tok], lookedUp := [decoded.id] } := by
  simp [protect, ht, truthy, hne]

/-- Either no usable token is found, or a non-empty token is. -/
theorem token_or_none (authorization : Option String) :
    truthy (extractToken authorization) = false ∨
    ∃ tok, extractToken authorization = some tok ∧ tok ≠ "" := by
  cases ht : extractToken authorization with
  | none => left; rfl
  | some tok =>
    by_cases hne : tok = ""
    · left; subst hne; rfl
    · right; exact ⟨tok, rfl, hne⟩

/-- C8, at the failing input: the token `good` verifies, the user lookup
throws, and the gate answers 401 'Not authorized, token invalid or expired'
for a token that is neither, without calling `next`. -/
theorem protect_lookup_failure_at_valid_token :
    extractToken (some "Bearer good") = some "good" ∧
    outageEnv.verify "good" = Except.ok ⟨ann.id⟩ ∧
    outageEnv.findById ann.id = Except.error "connection lost" ∧
    protect outageEnv (some "Bearer good") =
      { response := some (failure 401 "Not authorized, token invalid or expired"),
        reqUser := none, nextCalls := 0, verified := ["good"], lookedUp := [ann.id] } := by
  decide

/-- The invalid-token response is not reserved to tokens whose verification
fails: a lookup that throws for a verified token gets it too. -/
theorem protect_lookup_failure_reported_as_invalid_token :
    ¬ (∀ (env : AuthEnv) (authorization : Option String),
        (protect env authorization).response =
          some (failure 401 "Not authorized, token invalid or expired") →
        ∃ tok e, extractToken authorization = some tok ∧ env.verify tok = Except.error e) := by
  intro h
  obtain ⟨tok, e, ht, hv⟩ := h outageEnv (some "Bearer good") (by decide)
  have ht2 : extractToken (some "Bearer good") = some "good" := by decide
  rw [ht2] at ht
  cases ht
  have hv2 : outageEnv.verify "good" = Except.ok ⟨ann.id⟩ := rfl
  rw [hv2] at hv
  cases hv

/-- What the gate does with the invalid-token response: a bearer token whose
verification fails gets 401 'Not authorized, token invalid or expired' with
`next` not called and no user lookup; and the code gives that response exactly
when a token is present and either its verification throws or the user lookup
for the verified id throws. -/
theorem protect_invalid_token (env : AuthEnv) (authorization : Option String) :
    (∀ tok e, extractToken authorization = some tok → tok ≠ "" →
      env.verify tok = Except.error e →
      protect env authorization =
        { response := some (failure 401 "Not authorized, token invalid or expired"),
          reqUser := none, nextCalls := 0, verified := [tok], lookedUp := [] }) ∧
    ((protect env authorization).response =
        some (failure 401 "Not authorized, token invalid or expired") ↔
      ∃ tok, extractToken authorization = some tok ∧ tok ≠ "" ∧
        ((∃ e, env.verify tok = Except.error e) ∨
         ∃ d e, env.verify tok = Except.ok d ∧ env.findById d.id = Except.error e)) := by
  constructor
  · intro tok e ht hne hv
    rw [protect_cases env authorization tok ht hne, hv]
  · rcases token_or_none authorization with hx | ⟨tok, ht, hne⟩
    · rw [protect_of_not_truthy env authorization hx]
      constructor
      · intro hr; simp [noToken, failure] at hr
      · rintro ⟨tok, ht, hne, _⟩
        rw [ht] at hx
        simp [truthy, hne] at hx
    · rw [protect_cases env authorization tok ht hne]
      constructor
      · intro hr
        refine ⟨tok, ht, hne, ?_⟩
        cases hv : env.verify tok with
        | error e => exact Or.inl ⟨e, rfl⟩
        | ok d =>
          simp only [hv] at hr
          cases hf : env.findById d.id with
          | error e => exact Or.inr ⟨d, e, rfl, hf⟩
          | ok ou =>
            simp only [hf] at hr
            cases ou <;> simp [failure] at hr
      · rintro ⟨tok2, ht2, _, hcase⟩
        rw [ht] at ht2
        cases ht2
        rcases hcase with ⟨e, hv⟩ | ⟨d, e, hv, hf⟩
        · simp only [hv]
        · simp only [hv, hf]

/-- An instance of the forward direction: a token with a bad signature. -/
theorem protect_invalid_token_forged :
    extractToken (some "Bearer forged") = some "forged" ∧
    sampleEnv.verify "forged" = Except.error "invalid signature" ∧
    protect sampleEnv (some "Bearer forged") =
      { response := some (failure 401 "Not authorized, token invalid or expired"),
        reqUser := none, nextCalls := 0, verified := ["forged"], lookedUp := [] } :=
  ⟨by decide, rfl,
   (protect_invalid_token sampleEnv (some "Bearer forged")).1 "forged" "invalid signature"
     (by decide) (by decide) rfl⟩

/-- C9: for a bearer token that verifies to the id `d.id`, the gate answers 401
'User not found' without calling `next` when the lookup finds no user, and
otherwise attaches the user found, password removed, calls `next` once and
sends nothing; over all requests, `next` is called (once) exactly when a token
is present, verifies, and the lookup finds its user. -/
theorem protect_resolves_user (env : AuthEnv) (authorization : Option String) :
    (∀ tok d, extractToken authorization = some tok → tok ≠ "" →
      env.verify tok = Except.ok d →
      (env.findById d.id = Except.ok none →
        protect env authorization =
          { response := some (failure 401 "User not found"), reqUser := none,
            nextCalls := 0, verified := [tok], lookedUp := [d.id] }) ∧
      (∀ u, env.findById d.id = Except.ok (some u) →
        protect env authorization =
          { response := none, reqUser := some (selectMinusPassword u),
            nextCalls := 1, verified := [tok], lookedUp := [d.id] } ∧
        (selectMinusPassword u).password = none ∧
        (selectMinusPassword u)._id = u._id)) ∧
    ((protect env authorization).nextCalls ≠ 0 ↔
      ∃ tok d u, extractToken authorization = some tok ∧ tok ≠ "" ∧
        env.verify tok = Except.ok d ∧ env.findById d.id = Except.ok (some u)) ∧
    (protect env authorization).nextCalls ≤ 1 := by
  refine ⟨?_, ?_⟩
  · intro tok d ht hne hv
    rw [protect_cases env authorization tok ht hne]
    constructor
    · intro hf; simp only [hv, hf]
    · intro u hf
      refine ⟨?_, rfl, rfl⟩
      simp only [hv, hf]
  · rcases token_or_none authorization with hx | ⟨tok, ht, hne⟩
    · rw [protect_of_not_truthy env authorization hx]
      refine ⟨⟨fun h => absurd rfl h, ?_⟩, Nat.zero_le 1⟩
      rintro ⟨tok, d, u, ht, hne, _⟩
      rw [ht] at hx
      simp [truthy, hne] at hx
    · rw [protect_cases env authorization tok ht hne]
      cases hv : env.verify tok with
      | error e =>
        refine ⟨⟨fun h => absurd rfl h, ?_⟩, Nat.zero_le 1⟩
        rintro ⟨tok2, d, u, ht2, _, hv2, _⟩
        rw [ht] at ht2; cases ht2
        rw [hv] at hv2; cases hv2
      | ok d =>
        dsimp only
        cases hf : env.findById d.id with
        | error e =>
          dsimp only
          refine ⟨⟨fun h => absurd rfl h, ?_⟩, Nat.zero_le 1⟩
          rintro ⟨tok2, d2, u, ht2, _, hv2, hf2⟩
          rw [ht] at ht2; cases ht2
          rw [hv] at hv2; cases hv2
          rw [hf] at hf2; cases hf2
        | ok ou =>
          cases ou with
          | none =>
            dsimp only
            refine ⟨⟨fun h => absurd rfl h, ?_⟩, Nat.zero_le 1⟩
            rintro ⟨tok2, d2, u, ht2, _, hv2, hf2⟩
            rw [ht] at ht2; cases ht2
            rw [hv] at hv2; cases hv2
            rw [hf] at hf2; cases hf2
          | some u =>
            dsimp only
            exact ⟨⟨fun _ => ⟨tok, d, u, ht, hne, hv, hf⟩, fun _ => Nat.one_ne_zero⟩,
              Nat.le_refl 1⟩

/-- Witness of C9: the token of `ann`, whose stored document has a password
hash; the user attached has none. -/
theorem protect_resolves_user_witness :
    extractToken (some "Bearer good") = some "good" ∧
    sampleEnv.verify "good" = Except.ok ⟨ann.id⟩ ∧
    sampleEnv.findById ann.id = Except.ok (some annStored) ∧
    annStored.password ≠ none ∧
    protect sampleEnv (some "Bearer good") =
      { response := none, reqUser := some ann, nextCalls := 1, verified := ["good"],
        lookedUp := [ann.id] } :=
  ⟨by decide, rfl, rfl, by decide,
   (((protect_resolves_user sampleEnv (some "Bearer good")).1 "good" ⟨ann.id⟩
      (by decide) (by decide) rfl).2 annStored rfl).1⟩

/-! ## Creating -/

/-- The empty string is no hex color. -/
theorem isHexColor_ne_empty (c : String) (h : isHexColor c = true) : c ≠ "" := by
  rintro rfl
  exact absurd h (by decide)

/-- Looking up the id of a document appended to a store without that id. -/
theorem findById_append_fresh (db : Store) (n : Note)
    (hfresh : Note.findById db n._id.toString = Except.ok none) :
    Note.findById (db ++ [n]) n._id.toString = Except.ok (some n) := by
  rw [findById_toString] at hfresh ⊢
  have h : db.find? (fun m => m._id == n._id) = none := by
    injection hfresh
  rw [List.find?_append, h]
  simp

/-- C10 as stated fails for a title with white space around it: the request
is accepted with 201 and the note read back has the trimmed title, not the
title of the input. -/
theorem create_then_get_title_differs :
    (createNote [] 40 freshId ann padded).2.status = 201 ∧
    ¬ ((getNoteById (createNote [] 40 freshId ann padded).1 ann freshId.toString).2.title =
        padded.title) := by
  decide

/-- C10, amended: for a create request with a title whose trimmed form is
non-empty and at most 100 long, a non-empty content at most 5000 long and, if
given, a hex color, and a generated id not in the store, `createNote` answers
201 and `getNoteById` of that id by the same caller answers 200 with a note
whose title is the trimmed input title and whose content, tags and color are
the input's, tags being `[]` and color `#ffffff` when omitted. -/
theorem create_then_get (db : Store) (now : Nat) (newId : ObjectId) (caller : User)
    (body : NoteBody) (t c : String)
    (hfresh : Note.findById db newId.toString = Except.ok none)
    (ht : body.title = some t) (htv : jsTrim t ≠ "") (htl : jsLength (jsTrim t) ≤ 100)
    (hc : body.content = some c) (hcv : c ≠ "") (hcl : jsLength c ≤ 5000)
    (hcol : ∀ col, body.color = some col → isHexColor col = true) :
    ∃ n, createNote db now newId caller body = (db ++ [n], created n) ∧
      getNoteById (db ++ [n]) caller newId.toString = (db ++ [n], found n) ∧
      n.title = jsTrim t ∧ n.content = c ∧
      n.tags = body.tags.getD [] ∧ n.color = body.color.getD "#ffffff" ∧
      n.user.toString = caller.id := by
  have hcolor : (if truthy body.color then body.color.getD "" else "#ffffff") =
      body.color.getD "#ffffff" ∧
      checkMatch (some (body.color.getD "#ffffff")) = true := by
    cases hb : body.color with
    | none => exact ⟨rfl, by decide⟩
    | some col =>
      have h1 := hcol col hb
      have h2 := isHexColor_ne_empty col h1
      simp [truthy, h2, checkMatch, h1]
  have hcast : castObjectId caller.id = some caller._id := castObjectId_toString caller._id
  refine ⟨{ _id := newId, title := jsTrim t, content := c, tags := body.tags.getD [],
            color := body.color.getD "#ffffff", user := caller._id,
            createdAt := now, updatedAt := now }, ?_, ?_, rfl, rfl, rfl, rfl, rfl⟩
  · simp [createNote, Note.create, hcast, ht, hc, hcolor.1, hcolor.2, setTitle, titleErrors,
      contentErrors, colorErrors, checkRequired, checkMaxlength, htv, htl, hcv, hcl, created]
  · have hf := findById_append_fresh db
      { _id := newId, title := jsTrim t, content := c, tags := body.tags.getD [],
        color := body.color.getD "#ffffff", user := caller._id,
        createdAt := now, updatedAt := now } hfresh
    unfold getNoteById
    rw [hf]
    simp [User.id, found]

/-- Witness of C10: the padded title, read back trimmed, with the defaults. -/
theorem create_then_get_witness :
    Note.findById [shopping] freshId.toString = Except.ok none ∧
    ∃ n, createNote [shopping] 40 freshId ann padded = ([shopping] ++ [n], created n) ∧
      getNoteById ([shopping] ++ [n]) ann freshId.toString = ([shopping] ++ [n], found n) ∧
      n.title = "Shopping" ∧ n.content = "milk, eggs" ∧
      n.tags = [] ∧ n.color = "#ffffff" ∧ n.user.toString = ann.id :=
  ⟨by decide,
   create_then_get [shopping] 40 freshId ann padded " Shopping " "milk, eggs"
     (by decide) rfl (by decide) (by decide) rfl (by decide) (by decide)
     (by intro col h; cases h)⟩

/-- C11 as stated fails at the color `notacolor`: the note is not persisted,
but the status of the response is 500, not 400. -/
theorem createNote_bad_color_is_500 :
    ¬ ((createNote [shopping] 40 freshId ann garish).2.status = 400) ∧
    (createNote [shopping] 40 freshId ann garish).2.status = 500 := by
  decide

/-- C11, amended: for a create request whose color is a non-empty string that
is not `#` followed by six hexadecimal digits, `createNote` persists nothing
and answers 500 with the message of the validation error, which names the
path `color`. -/
theorem createNote_bad_color (db : Store) (now : Nat) (newId : ObjectId) (caller : User)
    (body : NoteBody) (col : String)
    (hcol : body.color = some col) (hne : col ≠ "") (hbad : isHexColor col = false) :
    createNote db now newId caller body =
      (db, failure 500 (validationMessage "Note validation failed"
        (titleErrors (setTitle body.title) ++ contentErrors body.content ++
          [("color", "Please provide a valid hex color")]))) := by
  have hc : colorErrors (some col) = [("color", "Please provide a valid hex color")] := by
    simp [colorErrors, checkMatch, hne, hbad]
  have hb : (col != "") = true := by simpa using hne
  have hcast : castObjectId caller.id = some caller._id := castObjectId_toString caller._id
  unfold createNote Note.create
  simp only [hcast, hcol, truthy, Option.getD_some, hb, if_true, hc]
  generalize hE : titleErrors (setTitle body.title) ++ contentErrors body.content ++
      [("color", "Please provide a valid hex color")] = errs
  cases errs with
  | nil => simp at hE
  | cons e es => rfl

/-- Witness of C11: the color `notacolor`. -/
theorem createNote_bad_color_witness :
    garish.color = some "notacolor" ∧ "notacolor" ≠ "" ∧ isHexColor "notacolor" = false ∧
    createNote [shopping] 40 freshId ann garish =
      ([shopping], failure 500
        "Note validation failed: color: Please provide a valid hex color") :=
  ⟨rfl, by decide, by decide,
   createNote_bad_color [shopping] 40 freshId ann garish "notacolor" rfl (by decide)
     (by decide)⟩

/-- An empty color string is replaced by the default before validation: the
request is accepted and the note persisted is white. -/
theorem createNote_empty_color_defaults :
    (createNote [] 40 freshId ann { garish with color := some "" }).2.status = 201 ∧
    (createNote [] 40 freshId ann { garish with color := some "" }).1.map Note.color =
      ["#ffffff"] := by
  decide

/-- C12: whatever the body holds, `createNote` either persists nothing (and
answers 500) or appends one note whose owner is the caller; a `user` key in
the body has no effect on the outcome. -/
theorem createNote_owner_is_caller (db : Store) (now : Nat) (newId : ObjectId)
    (caller : User) (body : NoteBody) :
    ((∃ msg, createNote db now newId caller body = (db, failure 500 msg)) ∨
     (∃ n, createNote db now newId caller body = (db ++ [n], created n) ∧
        n.user.toString = caller.id ∧ n.user = caller._id)) ∧
    ∀ other : Option String,
      createNote db now newId caller { body with user := other } =
        createNote db now newId caller body := by
  refine ⟨?_, fun _ => rfl⟩
  have hcast : castObjectId caller.id = some caller._id := castObjectId_toString caller._id
  unfold createNote Note.create
  simp only [hcast]
  split
  · rename_i db1 note heq
    right
    split at heq
    · injection heq with h1
      injection h1 with h2 h3
      subst h2 h3
      exact ⟨_, rfl, rfl, rfl⟩
    · cases heq
  · rename_i msg heq
    split at heq
    · cases heq
    · injection heq with h
      subst h
      exact Or.inl ⟨_, rfl⟩

/-- Witness of C12: `ann` creates a note with a body whose `user` key names
`bob`; the request is accepted and the note persisted is hers. -/
theorem createNote_owner_is_caller_witness :
    forged.user = some bob.id ∧
    (createNote [] 40 freshId ann forged).2.status = 201 ∧
    ((∃ msg, createNote [] 40 freshId ann forged = ([], failure 500 msg)) ∨
     (∃ n, createNote [] 40 freshId ann forged = ([] ++ [n], created n) ∧
        n.user.toString = ann.id ∧ n.user = ann._id)) :=
  ⟨rfl, by decide, (createNote_owner_is_caller [] 40 freshId ann forged).1⟩

/-! ## The Dashboard filter -/

/-- The test `includes` as an infix relation on the characters. -/
theorem jsIncludes_iff (s t : String) : jsIncludes s t = true ↔ t.data <:+: s.data := by
  simp [jsIncludes]

/-- C13: for every list of notes, search term and category filter (and every
lower-casing function), `filterNotes` yields the notes, in their original
order, that satisfy both conditions of the specification; with the category
`all` and the empty search term it yields the whole list; and its result is
always a sublist of the input. -/
theorem filterNotes_spec (toLowerCase : String → String) (notes : List DashboardNote)
    (searchTerm filterCategory : String) :
    filterNotes toLowerCase notes searchTerm filterCategory =
      notes.filter (fun note => decide (keptByFilter toLowerCase searchTerm filterCategory note)) ∧
    filterNotes toLowerCase notes "" "all" = notes ∧
    (filterNotes toLowerCase notes searchTerm filterCategory).Sublist notes := by
  have main : filterNotes toLowerCase notes searchTerm filterCategory =
      notes.filter (fun note =>
        decide (keptByFilter toLowerCase searchTerm filterCategory note)) := by
    have hkept : ∀ note : DashboardNote,
        decide (keptByFilter toLowerCase searchTerm filterCategory note) =
          ((filterCategory == "all" || note.category == some filterCategory) &&
           (searchTerm == "" ||
            (jsIncludes (toLowerCase note.title) (toLowerCase searchTerm) ||
             jsIncludes (toLowerCase note.content) (toLowerCase searchTerm)))) := by
      intro note
      rw [Bool.eq_iff_iff]
      simp [keptByFilter, jsIncludes_iff]
    simp only [hkept]
    unfold filterNotes
    by_cases hc : filterCategory = "all" <;> by_cases hs : searchTerm = ""
    · subst hc hs
      simp [truthy]
    · subst hc
      have hsb : (searchTerm == "") = false := beq_eq_false_iff_ne.mpr hs
      simp [truthy, hs, hsb]
    · subst hs
      have hcb : (filterCategory == "all") = false := beq_eq_false_iff_ne.mpr hc
      simp [truthy, hc, hcb]
    · have hsb : (searchTerm == "") = false := beq_eq_false_iff_ne.mpr hs
      have hcb : (filterCategory == "all") = false := beq_eq_false_iff_ne.mpr hc
      simp only [truthy, bne_iff_ne, ne_eq, hc, hs, not_false_eq_true, if_true,
        List.filter_filter, hsb, hcb, Bool.false_or]
      congr 1
      funext note
      exact Bool.and_comm _ _
  refine ⟨main, ?_, ?_⟩
  · simp [filterNotes, truthy]
  · rw [main]
    exact List.filter_sublist notes

/-- An example on three notes: the term `MILK` with the category `all` keeps
the two notes that mention milk, in order. -/
theorem filterNotes_board_example :
    (filterNotes lowerAscii board "MILK" "all").map (fun note => note._id) = ["1", "2"] ∧
    (filterNotes lowerAscii board "milk" "work").map (fun note => note._id) = ["2"] := by
  decide

end NotesApi
